import Mathlib

/-!
gopass: the password generator (`generator/generator.go`)

A shallow embedding of the Go package `generator` and the properties of its
three functions `validateSettings`, `getSpecialCharacters` and
`GeneratePassword`.

Modelling conventions.

* A Go `string` is an immutable sequence of bytes; it is embedded as
  `List UInt8` (`GoString`).  `len(s)` is `List.length`, `s + t` is `++`, and
  the conversion `[]byte(s)` is the identity.  String literals of the source
  are written `utf8 "..."`, the bytes of the literal.
* A Go `int` is embedded as `Int`; the only arithmetic done on it by the
  package is one comparison and one subtraction of two lengths, which cannot
  overflow.
* A slice expression `s[:hi]` panics at run time when `hi` is out of range.
  `sliceTo` returns `none` there and `GeneratePassword` turns it into
  `Result.panic`.
* The package-level variables `ErrorEmptyPass`, `ErrorEmptyDomain` and
  `specialCharsGroups` are never assigned by the package, so the functions are
  first embedded as functions of their arguments, with the variables at their
  initial values.  The section on the package at run time embeds the same
  functions as calls in a state (`Package`) that holds the variables and counts
  the error objects allocated by `errors.New` and `fmt.Errorf`, and relates the
  two embeddings.
* The standard library functions `sha256.Sum256`,
  `base64.StdEncoding.EncodeToString`, `strings.ToLower` and `strings.Count`
  are embedded from their published definitions (FIPS 180-4, RFC 4648).
-/

namespace Generator

/-! ## Go strings -/

/-- Go strings are byte sequences. -/
abbrev GoString := List UInt8

/-- The bytes of a source literal: the UTF-8 encoding of its characters. -/
def utf8 (s : String) : GoString :=
  s.data.flatMap String.utf8EncodeChar

/-- The slice expression `s[:hi]`: `none` stands for the run-time panic
"slice bounds out of range", raised when `hi < 0` or `hi > len(s)`. -/
def sliceTo (s : GoString) (hi : Int) : Option GoString :=
  if 0 ≤ hi ∧ hi ≤ (s.length : Int) then some (s.take hi.toNat) else none

/-- The index expression `xs[i]`: `none` stands for the run-time panic
"index out of range". -/
def index {α : Type} (xs : List α) (i : Nat) : Option α :=
  xs.get? i

/-! ## `crypto/sha256` (FIPS 180-4) on 32-bit words held in `Nat` -/

namespace SHA256

/-- Words are reduced modulo `2^32`. -/
def mask (x : Nat) : Nat := x % 4294967296

/-- Rotate a 32-bit word right by `n` bits (`0 < n < 32`). -/
def rotr (x n : Nat) : Nat :=
  mask ((x >>> n) ||| (x <<< (32 - n)))

def ch (x y z : Nat) : Nat := (x &&& y) ^^^ ((4294967295 ^^^ x) &&& z)

def maj (x y z : Nat) : Nat := (x &&& y) ^^^ (x &&& z) ^^^ (y &&& z)

def bigSigma0 (x : Nat) : Nat := rotr x 2 ^^^ rotr x 13 ^^^ rotr x 22

def bigSigma1 (x : Nat) : Nat := rotr x 6 ^^^ rotr x 11 ^^^ rotr x 25

def smallSigma0 (x : Nat) : Nat := rotr x 7 ^^^ rotr x 18 ^^^ (x >>> 3)

def smallSigma1 (x : Nat) : Nat := rotr x 17 ^^^ rotr x 19 ^^^ (x >>> 10)

/-- The 64 round constants. -/
def K : List Nat :=
  [0x428a2f98, 0x71374491, 0xb5c0fbcf, 0xe9b5dba5, 0x3956c25b, 0x59f111f1, 0x923f82a4, 0xab1c5ed5,
   0xd807aa98, 0x12835b01, 0x243185be, 0x550c7dc3, 0x72be5d74, 0x80deb1fe, 0x9bdc06a7, 0xc19bf174,
   0xe49b69c1, 0xefbe4786, 0x0fc19dc6, 0x240ca1cc, 0x2de92c6f, 0x4a7484aa, 0x5cb0a9dc, 0x76f988da,
   0x983e5152, 0xa831c66d, 0xb00327c8, 0xbf597fc7, 0xc6e00bf3, 0xd5a79147, 0x06ca6351, 0x14292967,
   0x27b70a85, 0x2e1b2138, 0x4d2c6dfc, 0x53380d13, 0x650a7354, 0x766a0abb, 0x81c2c92e, 0x92722c85,
   0xa2bfe8a1, 0xa81a664b, 0xc24b8b70, 0xc76c51a3, 0xd192e819, 0xd6990624, 0xf40e3585, 0x106aa070,
   0x19a4c116, 0x1e376c08, 0x2748774c, 0x34b0bcb5, 0x391c0cb3, 0x4ed8aa4a, 0x5b9cca4f, 0x682e6ff3,
   0x748f82ee, 0x78a5636f, 0x84c87814, 0x8cc70208, 0x90befffa, 0xa4506ceb, 0xbef9a3f7, 0xc67178f2]

/-- The eight working variables (and the chaining value). -/
structure Digest where
  a : Nat
  b : Nat
  c : Nat
  d : Nat
  e : Nat
  f : Nat
  g : Nat
  h : Nat
deriving DecidableEq, Repr

/-- The initial hash value. -/
def init : Digest :=
  { a := 0x6a09e667, b := 0xbb67ae85, c := 0x3c6ef372, d := 0xa54ff53a,
    e := 0x510e527f, f := 0x9b05688c, g := 0x1f83d9ab, h := 0x5be0cd19 }

/-- Big-endian 32-bit words of a block of bytes. -/
def words : List UInt8 → List Nat
  | b0 :: b1 :: b2 :: b3 :: rest =>
      (b0.toNat * 16777216 + b1.toNat * 65536 + b2.toNat * 256 + b3.toNat) :: words rest
  | _ => []

/-- Extend the message schedule by `n` further words. -/
def extend : Nat → List Nat → List Nat
  | 0, w => w
  | n + 1, w =>
      let t := w.length
      extend n (w ++ [mask (smallSigma1 (w.getD (t - 2) 0) + w.getD (t - 7) 0
                            + smallSigma0 (w.getD (t - 15) 0) + w.getD (t - 16) 0)])

/-- The 64-word message schedule of a 64-byte block. -/
def schedule (block : List UInt8) : List Nat :=
  extend 48 (words block)

/-- One round of the compression function, with round constant `k` and
schedule word `w`. -/
def round (s : Digest) (k w : Nat) : Digest :=
  let t1 := s.h + bigSigma1 s.e + ch s.e s.f s.g + k + w
  let t2 := bigSigma0 s.a + maj s.a s.b s.c
  { a := mask (t1 + t2), b := s.a, c := s.b, d := s.c,
    e := mask (s.d + t1), f := s.e, g := s.f, h := s.g }

/-- The 64 rounds. -/
def rounds : Digest → List Nat → List Nat → Digest
  | s, k :: ks, w :: ws => rounds (round s k w) ks ws
  | s, _, _ => s

/-- Compress one 64-byte block into the chaining value. -/
def compress (hv : Digest) (block : List UInt8) : Digest :=
  let s := rounds hv K (schedule block)
  { a := mask (hv.a + s.a), b := mask (hv.b + s.b), c := mask (hv.c + s.c),
    d := mask (hv.d + s.d), e := mask (hv.e + s.e), f := mask (hv.f + s.f),
    g := mask (hv.g + s.g), h := mask (hv.h + s.h) }

/-- Compress `n` consecutive 64-byte blocks. -/
def blocks : Nat → Digest → List UInt8 → Digest
  | 0, hv, _ => hv
  | n + 1, hv, bs => blocks n (compress hv (bs.take 64)) (bs.drop 64)

/-- The big-endian bytes of a 64-bit length. -/
def be64 (n : Nat) : List UInt8 :=
  [UInt8.ofNat (n >>> 56), UInt8.ofNat (n >>> 48), UInt8.ofNat (n >>> 40), UInt8.ofNat (n >>> 32),
   UInt8.ofNat (n >>> 24), UInt8.ofNat (n >>> 16), UInt8.ofNat (n >>> 8), UInt8.ofNat n]

/-- The big-endian bytes of a 32-bit word. -/
def be32 (w : Nat) : List UInt8 :=
  [UInt8.ofNat (w >>> 24), UInt8.ofNat (w >>> 16), UInt8.ofNat (w >>> 8), UInt8.ofNat w]

/-- The message followed by the bit `1`, zero bits up to 56 modulo 64 bytes,
and the message length in bits as a 64-bit big-endian integer. -/
def pad (msg : List UInt8) : List UInt8 :=
  msg ++ [0x80] ++ List.replicate ((64 - (msg.length + 9) % 64) % 64) 0
    ++ be64 ((msg.length * 8) % 18446744073709551616)

/-- The 32 bytes of a chaining value. -/
def bytes (s : Digest) : List UInt8 :=
  be32 s.a ++ be32 s.b ++ be32 s.c ++ be32 s.d ++ be32 s.e ++ be32 s.f ++ be32 s.g ++ be32 s.h

/-- The function `sha256.Sum256`: the SHA-256 checksum of the data. -/
def Sum256 (data : List UInt8) : List UInt8 :=
  let padded := pad data
  bytes (blocks (padded.length / 64) init padded)

end SHA256

/-! ## `encoding/base64`, standard alphabet with padding (RFC 4648) -/

namespace Base64

/-- The standard alphabet. -/
def encodeStd : GoString :=
  utf8 "ABCDEFGHIJKLMNOPQRSTUVWXYZabcdefghijklmnopqrstuvwxyz0123456789+/"

/-- The padding character `=`. -/
def StdPadding : UInt8 := 61

/-- The alphabet character of a 6-bit value. -/
def enc (v : Nat) : UInt8 := encodeStd.getD (v % 64) 0

/-- The function `base64.StdEncoding.EncodeToString`: three bytes become four
characters; a remainder of one or two bytes is padded with `=`. -/
def EncodeToString : List UInt8 → GoString
  | [] => []
  | [b0] =>
      let v := b0.toNat * 65536
      [enc (v >>> 18), enc (v >>> 12), StdPadding, StdPadding]
  | [b0, b1] =>
      let v := b0.toNat * 65536 + b1.toNat * 256
      [enc (v >>> 18), enc (v >>> 12), enc (v >>> 6), StdPadding]
  | b0 :: b1 :: b2 :: rest =>
      let v := b0.toNat * 65536 + b1.toNat * 256 + b2.toNat
      enc (v >>> 18) :: enc (v >>> 12) :: enc (v >>> 6) :: enc v :: EncodeToString rest

end Base64

/-! ## The package `generator` -/

/-- Settings holds all properties for the password, which will be generated. -/
structure Settings where
  MasterPhrase : GoString
  Domain : GoString
  AdditionalInfo : GoString
  PasswordLength : Int
  AddSpecialCharacters : Bool
deriving DecidableEq

/-- The error values of the package.  `ErrorEmptyPass` and `ErrorEmptyDomain`
are the two package-level values made by `errors.New`; `Errorf msg` is a
value made by `fmt.Errorf`, which is never identical to either of them. -/
inductive Error where
  | ErrorEmptyPass
  | ErrorEmptyDomain
  | Errorf (msg : GoString)
deriving DecidableEq

/-- The method `Error()`: the message of an error value. -/
def Error.message : Error → GoString
  | .ErrorEmptyPass => utf8 "Empty master password"
  | .ErrorEmptyDomain => utf8 "Empty domain"
  | .Errorf msg => msg

/-- What a call of `GeneratePassword` does: it returns the pair
`([]byte, error)`, where `none` is Go's `nil`, or it panics. -/
inductive Result where
  | value (password : Option GoString) (err : Option Error)
  | panic
deriving DecidableEq

/-- The constant `vowels`. -/
def vowels : GoString := utf8 "aeiouy"

/-- DefaultSettings creates a settings struct with default values for password
length (12) and special characters (included); the other fields have the zero
value of their type. -/
def DefaultSettings : Settings :=
  { MasterPhrase := [], Domain := [], AdditionalInfo := [],
    PasswordLength := 12, AddSpecialCharacters := true }

/-- The package variable `specialCharsGroups`. -/
def specialCharsGroups : List GoString :=
  [utf8 "`~]'", utf8 "!&^#", utf8 ")(*$", utf8 "[ -=", utf8 "@%.;", utf8 "<,\x7d+"]

/-- The function `strings.ToLower` on ASCII text: the bytes `A`..`Z` are moved
to `a`..`z`, every other byte is kept.  On text with bytes above `0x7f` Go
decodes runes and consults the Unicode case tables, which are not embedded:
there this definition keeps the bytes, whereas Go maps, for instance, U+0130 to
`i`.  The package only passes the encoded digest to it, and all bytes of the
encoded digest are below `0x80` (`fullEncryptHash_ascii`). -/
def ToLower (s : GoString) : GoString :=
  s.map fun c => if 65 ≤ c.toNat ∧ c.toNat ≤ 90 then UInt8.ofNat (c.toNat + 32) else c

/-- The function `strings.Count` for a one-byte substring: the number of
occurrences of the byte. -/
def Count (s : GoString) (c : UInt8) : Nat :=
  s.count c

/-- The loop of `getSpecialCharacters`: the sum, over the bytes `v` of `vowels`,
of the number of occurrences of `v` in the lower-cased text. -/
def vowelCount (encrypted : GoString) : Nat :=
  vowels.foldl (fun vowelCount v => vowelCount + Count (ToLower encrypted) v) 0

/-- getSpecialCharacters selects from a predefined set of special characters
and returns them; `none` is the panic of an out-of-range index. -/
def getSpecialCharacters (encrypted : GoString) : Option GoString :=
  index specialCharsGroups (vowelCount encrypted % specialCharsGroups.length)

/-- validateSettings checks if the settings object contains all mandatory
fields; `none` is `nil`. -/
def validateSettings (settings : Settings) : Option Error :=
  if settings.MasterPhrase = [] then some Error.ErrorEmptyPass
  else if settings.Domain = [] then some Error.ErrorEmptyDomain
  else none

/-- The text hashed by `GeneratePassword`:
`fmt.Sprintf("%s:%s:%s", MasterPhrase, Domain, AdditionalInfo)`. -/
def passToEncrypt (settings : Settings) : GoString :=
  settings.MasterPhrase ++ utf8 ":" ++ settings.Domain ++ utf8 ":" ++ settings.AdditionalInfo

/-- The encoded digest `fullEncryptHash` of `GeneratePassword`. -/
def fullEncryptHash (settings : Settings) : GoString :=
  Base64.EncodeToString (SHA256.Sum256 (passToEncrypt settings))

/-- The decimal digits of a length, as `%d` prints it. -/
def itoa (n : Nat) : GoString := utf8 (Nat.repr n)

/-- GeneratePassword generates the domain specific password. -/
def GeneratePassword (settings : Settings) : Result :=
  match validateSettings settings with
  | some err => Result.value none (some err)
  | none =>
    let fullEncryptHash := fullEncryptHash settings
    if (fullEncryptHash.length : Int) < settings.PasswordLength then
      Result.value none (some (Error.Errorf
        (utf8 "Cannot generate password with so many symbols. The current limit is ["
          ++ itoa fullEncryptHash.length ++ utf8 "].")))
    else
      match sliceTo fullEncryptHash settings.PasswordLength with
      | none => Result.panic
      | some trimmedPass =>
        if settings.AddSpecialCharacters then
          match getSpecialCharacters fullEncryptHash with
          | none => Result.panic
          | some charsToAdd =>
            match sliceTo trimmedPass ((trimmedPass.length : Int) - (charsToAdd.length : Int)) with
            | none => Result.panic
            | some head => Result.value (some (head ++ charsToAdd)) none
        else
          Result.value (some trimmedPass) none

/-! ## The package at run time: its package-level variables and the allocation of error values -/

/-- An error value as Go holds it: a pointer to an error object.  `addr` is the
identity of the object, which is what `==` compares on error values, and `msg`
is what the method `Error()` returns. -/
structure ErrorValue where
  addr : Nat
  msg : GoString
deriving DecidableEq

/-- The state a call of the package can read or write: the three package-level
variables `ErrorEmptyPass`, `ErrorEmptyDomain` (`none` is `nil`) and
`specialCharsGroups`, and the number of error objects allocated so far. -/
structure Package where
  ErrorEmptyPass : Option ErrorValue
  ErrorEmptyDomain : Option ErrorValue
  specialCharsGroups : List GoString
  allocated : Nat

/-- The functions `errors.New` and `fmt.Errorf` (without `%w`): each call
allocates a new error object, distinct from every earlier one, that holds the
message. -/
def Package.New (pkg : Package) (msg : GoString) : ErrorValue × Package :=
  (⟨pkg.allocated, msg⟩, { pkg with allocated := pkg.allocated + 1 })

/-- The package after initialisation of its variables, in declaration order:
the two calls of `errors.New` and the slice literal. -/
def Package.initial : Package :=
  { ErrorEmptyPass := some ⟨0, utf8 "Empty master password"⟩,
    ErrorEmptyDomain := some ⟨1, utf8 "Empty domain"⟩,
    specialCharsGroups := Generator.specialCharsGroups,
    allocated := 2 }

/-- What a call of `GeneratePassword` does at run time: it returns the pair
`([]byte, error)` or it panics. -/
inductive Returned where
  | value (password : Option GoString) (err : Option ErrorValue)
  | panic
deriving DecidableEq

/-- getSpecialCharacters, reading the variable `specialCharsGroups`. -/
def Package.getSpecialCharacters (pkg : Package) (encrypted : GoString) : Option GoString :=
  index pkg.specialCharsGroups (vowelCount encrypted % pkg.specialCharsGroups.length)

/-- validateSettings, reading the variables `ErrorEmptyPass` and
`ErrorEmptyDomain`. -/
def Package.validateSettings (pkg : Package) (settings : Settings) : Option ErrorValue :=
  if settings.MasterPhrase = [] then pkg.ErrorEmptyPass
  else if settings.Domain = [] then pkg.ErrorEmptyDomain
  else none

/-- GeneratePassword as a call in a state of the package: what it returns and
the state it leaves. -/
def Package.GeneratePassword (pkg : Package) (settings : Settings) : Returned × Package :=
  match pkg.validateSettings settings with
  | some err => (Returned.value none (some err), pkg)
  | none =>
    let fullEncryptHash := fullEncryptHash settings
    if (fullEncryptHash.length : Int) < settings.PasswordLength then
      let (err, pkg') := pkg.New
        (utf8 "Cannot generate password with so many symbols. The current limit is ["
          ++ itoa fullEncryptHash.length ++ utf8 "].")
      (Returned.value none (some err), pkg')
    else
      match sliceTo fullEncryptHash settings.PasswordLength with
      | none => (Returned.panic, pkg)
      | some trimmedPass =>
        if settings.AddSpecialCharacters then
          match pkg.getSpecialCharacters fullEncryptHash with
          | none => (Returned.panic, pkg)
          | some charsToAdd =>
            match sliceTo trimmedPass ((trimmedPass.length : Int) - (charsToAdd.length : Int)) with
            | none => (Returned.panic, pkg)
            | some head => (Returned.value (some (head ++ charsToAdd)) none, pkg)
        else
          (Returned.value (some trimmedPass) none, pkg)

/-- The states of the package that calls of GeneratePassword can reach from
the initial one. -/
inductive Package.Reachable : Package → Prop where
  | initial : Package.Reachable Package.initial
  | call (pkg : Package) (settings : Settings) :
      Package.Reachable pkg → Package.Reachable (pkg.GeneratePassword settings).2

/-- What a caller can tell of a returned error value: whether it is the object
held by `ErrorEmptyPass`, the object held by `ErrorEmptyDomain`, or another
object, of which it has the message. -/
def Package.classify (pkg : Package) (e : ErrorValue) : Error :=
  if pkg.ErrorEmptyPass.map ErrorValue.addr = some e.addr then Error.ErrorEmptyPass
  else if pkg.ErrorEmptyDomain.map ErrorValue.addr = some e.addr then Error.ErrorEmptyDomain
  else Error.Errorf e.msg

/-- The result of a call with the identity of a newly allocated error object
left out. -/
def Package.observe (pkg : Package) : Returned → Result
  | Returned.value password err => Result.value password (err.map pkg.classify)
  | Returned.panic => Result.panic

/-- The run-time result that stands for a result of the function
`GeneratePassword` of the five fields in a state of the package: the two
package errors are the objects held by the variables, and the error made by
`fmt.Errorf` is the object allocated next. -/
def Package.reify (pkg : Package) : Result → Returned
  | Result.panic => Returned.panic
  | Result.value password none => Returned.value password none
  | Result.value password (some Error.ErrorEmptyPass) => Returned.value password pkg.ErrorEmptyPass
  | Result.value password (some Error.ErrorEmptyDomain) =>
      Returned.value password pkg.ErrorEmptyDomain
  | Result.value password (some (Error.Errorf msg)) =>
      Returned.value password (some ⟨pkg.allocated, msg⟩)

/-- The package-level variables hold their initial values and the two error
objects of the initialisation are older than every later allocation. -/
def Package.Intact (pkg : Package) : Prop :=
  pkg.ErrorEmptyPass = Package.initial.ErrorEmptyPass ∧
  pkg.ErrorEmptyDomain = Package.initial.ErrorEmptyDomain ∧
  pkg.specialCharsGroups = Package.initial.specialCharsGroups ∧
  2 ≤ pkg.allocated

/-! ## Definitions that follow the words of the specification -/

/-- Following the spec's words for the vowel count: the number of positions of
`s` that hold one of the twelve characters `a e i o u y A E I O U Y`. -/
def vowelPositions (s : GoString) : Nat :=
  s.countP fun c => decide (c ∈ utf8 "aeiouyAEIOUY")

/-! ## Facts about the library functions and the case analysis of `GeneratePassword` -/

theorem SHA256.Sum256_length (data : List UInt8) : (SHA256.Sum256 data).length = 32 := by
  simp [SHA256.Sum256, SHA256.bytes, SHA256.be32]

theorem Base64.EncodeToString_length (src : List UInt8) :
    (Base64.EncodeToString src).length = 4 * ((src.length + 2) / 3) := by
  induction src using Base64.EncodeToString.induct with
  | case1 => simp [Base64.EncodeToString]
  | case2 b0 => simp [Base64.EncodeToString]
  | case3 b0 b1 => simp [Base64.EncodeToString]
  | case4 b0 b1 b2 rest ih =>
    simp only [Base64.EncodeToString, List.length_cons, ih]
    omega

theorem fullEncryptHash_length (s : Settings) : (fullEncryptHash s).length = 44 := by
  simp [fullEncryptHash, Base64.EncodeToString_length, SHA256.Sum256_length]

theorem validateSettings_of_valid (s : Settings) (hM : s.MasterPhrase ≠ []) (hD : s.Domain ≠ []) :
    validateSettings s = none := by
  simp [validateSettings, hM, hD]

theorem sliceTo_of_le (s : GoString) (hi : Int) (h0 : 0 ≤ hi) (h1 : hi ≤ (s.length : Int)) :
    sliceTo s hi = some (s.take hi.toNat) := by
  simp [sliceTo, h0, h1]

theorem sliceTo_of_neg (s : GoString) (hi : Int) (h : hi < 0) : sliceTo s hi = none := by
  simp [sliceTo]; intro h0; omega

theorem specialCharsGroups_length : specialCharsGroups.length = 6 := rfl

theorem getSpecialCharacters_eq (e : GoString) :
    getSpecialCharacters e = specialCharsGroups.get? (vowelCount e % 6) := rfl

theorem specialCharsGroups_get (i : Nat) (h : i < 6) :
    ∃ g, specialCharsGroups.get? i = some g ∧ g ∈ specialCharsGroups ∧ g.length = 4 := by
  interval_cases i <;> exact ⟨_, rfl, by decide, by decide⟩

theorem getSpecialCharacters_some (e : GoString) :
    ∃ g, getSpecialCharacters e = some g ∧ g ∈ specialCharsGroups ∧ g.length = 4 := by
  rw [getSpecialCharacters_eq]
  exact specialCharsGroups_get _ (Nat.mod_lt _ (by decide))

theorem itoa_44 : itoa 44 = utf8 "44" := by decide

theorem GeneratePassword_too_long (s : Settings) (hM : s.MasterPhrase ≠ []) (hD : s.Domain ≠ [])
    (h : 44 < s.PasswordLength) :
    GeneratePassword s = Result.value none (some (Error.Errorf
      (utf8 "Cannot generate password with so many symbols. The current limit is ["
        ++ utf8 "44" ++ utf8 "]."))) := by
  simp only [GeneratePassword, validateSettings_of_valid s hM hD, fullEncryptHash_length, itoa_44]
  rw [if_pos (by exact_mod_cast h)]

theorem GeneratePassword_negative (s : Settings) (hM : s.MasterPhrase ≠ []) (hD : s.Domain ≠ [])
    (h : s.PasswordLength < 0) : GeneratePassword s = Result.panic := by
  simp only [GeneratePassword, validateSettings_of_valid s hM hD, fullEncryptHash_length]
  rw [if_neg (by push_cast; omega), sliceTo_of_neg _ _ h]

theorem GeneratePassword_plain (s : Settings) (hM : s.MasterPhrase ≠ []) (hD : s.Domain ≠ [])
    (hS : s.AddSpecialCharacters = false) (h0 : 0 ≤ s.PasswordLength) (h44 : s.PasswordLength ≤ 44) :
    GeneratePassword s
      = Result.value (some ((fullEncryptHash s).take s.PasswordLength.toNat)) none := by
  simp only [GeneratePassword, validateSettings_of_valid s hM hD, fullEncryptHash_length]
  rw [if_neg (by push_cast; omega),
    sliceTo_of_le _ _ h0 (by rw [fullEncryptHash_length]; exact_mod_cast h44)]
  simp [hS]

theorem GeneratePassword_special (s : Settings) (hM : s.MasterPhrase ≠ []) (hD : s.Domain ≠ [])
    (hS : s.AddSpecialCharacters = true) (h4 : 4 ≤ s.PasswordLength) (h44 : s.PasswordLength ≤ 44)
    (g : GoString) (hg : getSpecialCharacters (fullEncryptHash s) = some g) :
    GeneratePassword s
      = Result.value (some ((fullEncryptHash s).take (s.PasswordLength - 4).toNat ++ g)) none := by
  obtain ⟨g', hg', -, hlen⟩ := getSpecialCharacters_some (fullEncryptHash s)
  have hgg : g' = g := by rw [hg] at hg'; exact (Option.some.inj hg').symm
  subst hgg
  have hE := fullEncryptHash_length s
  simp only [GeneratePassword, validateSettings_of_valid s hM hD, fullEncryptHash_length]
  rw [if_neg (by push_cast; omega),
    sliceTo_of_le _ _ (by omega) (by rw [hE]; exact_mod_cast h44)]
  simp only [hS, if_true, hg, hlen]
  have hlt : ((List.take s.PasswordLength.toNat (fullEncryptHash s)).length : Int)
      = s.PasswordLength := by
    rw [List.length_take, hE]; omega
  rw [sliceTo_of_le _ _ (by rw [hlt]; push_cast; omega) (by rw [hlt]; push_cast; omega), hlt]
  simp only [List.take_take]
  congr 3
  push_cast
  rw [min_eq_left]; omega

theorem GeneratePassword_short (s : Settings) (hM : s.MasterPhrase ≠ []) (hD : s.Domain ≠ [])
    (hS : s.AddSpecialCharacters = true) (h4 : s.PasswordLength < 4) :
    GeneratePassword s = Result.panic := by
  by_cases h0 : s.PasswordLength < 0
  · exact GeneratePassword_negative s hM hD h0
  obtain ⟨g, hg, -, hlen⟩ := getSpecialCharacters_some (fullEncryptHash s)
  have hE := fullEncryptHash_length s
  simp only [GeneratePassword, validateSettings_of_valid s hM hD, fullEncryptHash_length]
  rw [if_neg (by push_cast; omega),
    sliceTo_of_le _ _ (by omega) (by rw [hE]; push_cast; omega)]
  simp only [hS, if_true, hg, hlen]
  have hlt : ((List.take s.PasswordLength.toNat (fullEncryptHash s)).length : Int)
      = s.PasswordLength := by
    rw [List.length_take, hE]; omega
  rw [sliceTo_of_neg _ _ (by rw [hlt]; push_cast; omega)]

/-! ## The package at run time against the function of the five fields -/

theorem Package.GeneratePassword_state (pkg : Package) (s : Settings) :
    ∃ n : Nat, (pkg.GeneratePassword s).2 = { pkg with allocated := pkg.allocated + n } := by
  unfold Package.GeneratePassword
  cases pkg.validateSettings s with
  | some e => exact ⟨0, rfl⟩
  | none =>
    dsimp only
    by_cases h1 : ((fullEncryptHash s).length : Int) < s.PasswordLength
    · rw [if_pos h1]; exact ⟨1, rfl⟩
    · rw [if_neg h1]
      cases sliceTo (fullEncryptHash s) s.PasswordLength with
      | none => exact ⟨0, rfl⟩
      | some t =>
        dsimp only
        cases s.AddSpecialCharacters with
        | false => exact ⟨0, rfl⟩
        | true =>
          rw [if_pos rfl]
          cases pkg.getSpecialCharacters (fullEncryptHash s) with
          | none => exact ⟨0, rfl⟩
          | some c =>
            dsimp only
            split <;> exact ⟨0, rfl⟩

theorem Package.GeneratePassword_variables (pkg : Package) (s : Settings) :
    (pkg.GeneratePassword s).2.ErrorEmptyPass = pkg.ErrorEmptyPass ∧
    (pkg.GeneratePassword s).2.ErrorEmptyDomain = pkg.ErrorEmptyDomain ∧
    (pkg.GeneratePassword s).2.specialCharsGroups = pkg.specialCharsGroups ∧
    pkg.allocated ≤ (pkg.GeneratePassword s).2.allocated := by
  obtain ⟨n, hn⟩ := Package.GeneratePassword_state pkg s
  rw [hn]
  exact ⟨rfl, rfl, rfl, Nat.le_add_right _ _⟩

theorem Package.Reachable.intact {pkg : Package} (h : pkg.Reachable) : pkg.Intact := by
  induction h with
  | initial => exact ⟨rfl, rfl, rfl, le_refl _⟩
  | call pkg s _ ih =>
    obtain ⟨h1, h2, h3, h4⟩ := Package.GeneratePassword_variables pkg s
    obtain ⟨i1, i2, i3, i4⟩ := ih
    exact ⟨h1.trans i1, h2.trans i2, h3.trans i3, le_trans i4 h4⟩

theorem Package.getSpecialCharacters_intact (pkg : Package) (hI : pkg.Intact) (e : GoString) :
    pkg.getSpecialCharacters e = Generator.getSpecialCharacters e := by
  unfold Package.getSpecialCharacters Generator.getSpecialCharacters
  rw [hI.2.2.1]
  rfl

theorem Package.GeneratePassword_eq (pkg : Package) (hI : pkg.Intact) (s : Settings) :
    (pkg.GeneratePassword s).1 = pkg.reify (Generator.GeneratePassword s) := by
  have hg := Package.getSpecialCharacters_intact pkg hI (fullEncryptHash s)
  obtain ⟨h1, h2, -, -⟩ := hI
  unfold Package.GeneratePassword Generator.GeneratePassword
  unfold Package.validateSettings Generator.validateSettings
  by_cases hM : s.MasterPhrase = []
  · simp only [hM, if_true, h1, Package.initial, Package.reify]
  by_cases hD : s.Domain = []
  · simp only [hM, hD, if_true, if_false, h2, Package.initial, Package.reify]
  simp only [hM, hD, if_false]
  by_cases hL : ((fullEncryptHash s).length : Int) < s.PasswordLength
  · simp only [hL, if_true, Package.New, Package.reify]
  simp only [hL, if_false]
  cases sliceTo (fullEncryptHash s) s.PasswordLength with
  | none => rfl
  | some t =>
    dsimp only
    cases s.AddSpecialCharacters with
    | false => rfl
    | true =>
      simp only [if_true, hg]
      cases Generator.getSpecialCharacters (fullEncryptHash s) with
      | none => rfl
      | some c =>
        dsimp only
        cases sliceTo t ((t.length : Int) - (c.length : Int)) <;> rfl

theorem Package.observe_reify (pkg : Package) (hI : pkg.Intact) (r : Result) :
    pkg.observe (pkg.reify r) = r := by
  obtain ⟨h1, h2, -, h4⟩ := hI
  match r with
  | Result.panic => rfl
  | Result.value pw none => rfl
  | Result.value pw (some Error.ErrorEmptyPass) =>
    simp [Package.reify, Package.observe, Package.classify, h1, Package.initial]
  | Result.value pw (some Error.ErrorEmptyDomain) =>
    simp [Package.reify, Package.observe, Package.classify, h1, h2, Package.initial]
  | Result.value pw (some (Error.Errorf msg)) =>
    have h0 : ¬ (0 = pkg.allocated) := by omega
    have h1' : ¬ (1 = pkg.allocated) := by omega
    simp [Package.reify, Package.observe, Package.classify, h1, h2, Package.initial, h0, h1']

theorem Package.reify_congr (pkg pkg' : Package)
    (hP : pkg'.ErrorEmptyPass = pkg.ErrorEmptyPass)
    (hD : pkg'.ErrorEmptyDomain = pkg.ErrorEmptyDomain) (r : Result)
    (hr : ∀ pw msg, r ≠ Result.value pw (some (Error.Errorf msg))) :
    pkg'.reify r = pkg.reify r := by
  match r, hr with
  | Result.panic, _ => rfl
  | Result.value pw none, _ => rfl
  | Result.value pw (some Error.ErrorEmptyPass), _ => simp [Package.reify, hP]
  | Result.value pw (some Error.ErrorEmptyDomain), _ => simp [Package.reify, hD]
  | Result.value pw (some (Error.Errorf msg)), hr => exact absurd rfl (hr pw msg)

theorem GeneratePassword_Errorf (s : Settings) (pw : Option GoString) (msg : GoString)
    (h : GeneratePassword s = Result.value pw (some (Error.Errorf msg))) :
    s.MasterPhrase ≠ [] ∧ s.Domain ≠ [] ∧ 44 < s.PasswordLength := by
  by_cases hM : s.MasterPhrase = []
  · simp [GeneratePassword, validateSettings, hM] at h
  by_cases hD : s.Domain = []
  · simp [GeneratePassword, validateSettings, hM, hD] at h
  refine ⟨hM, hD, ?_⟩
  by_contra hL
  by_cases h0 : s.PasswordLength < 0
  · rw [GeneratePassword_negative s hM hD h0] at h
    exact Result.noConfusion h
  cases hS : s.AddSpecialCharacters with
  | false =>
    rw [GeneratePassword_plain s hM hD hS (by omega) (by omega)] at h
    simp at h
  | true =>
    by_cases h4 : s.PasswordLength < 4
    · rw [GeneratePassword_short s hM hD hS h4] at h
      exact Result.noConfusion h
    · obtain ⟨g, hg, -, -⟩ := getSpecialCharacters_some (fullEncryptHash s)
      rw [GeneratePassword_special s hM hD hS (by omega) (by omega) g hg] at h
      simp at h

/-! ## The claims -/

/-- C1: for settings with non-empty MasterPhrase and Domain, AddSpecialCharacters
set and 4 ≤ PasswordLength ≤ 44, GeneratePassword returns, with a nil error, the
first PasswordLength - 4 characters of E followed by entry number (v mod 6) of
the table of six literals, where E is the padded base64 text of the SHA-256
digest of MasterPhrase:Domain:AdditionalInfo (44 characters) and v is the vowel
count of E; the last four characters of the output are that entry, one of the
six literals, and the table is the package variable specialCharsGroups. -/
theorem GeneratePassword_special_suffix (s : Settings)
    (hM : s.MasterPhrase ≠ []) (hD : s.Domain ≠ []) (hS : s.AddSpecialCharacters = true)
    (h4 : 4 ≤ s.PasswordLength) (h44 : s.PasswordLength ≤ 44) :
    ∃ E group out : GoString,
      E = Base64.EncodeToString (SHA256.Sum256
            (s.MasterPhrase ++ utf8 ":" ++ s.Domain ++ utf8 ":" ++ s.AdditionalInfo)) ∧
      E.length = 44 ∧
      specialCharsGroups
        = [utf8 "`~]'", utf8 "!&^#", utf8 ")(*$", utf8 "[ -=", utf8 "@%.;", utf8 "<,\x7d+"] ∧
      [utf8 "`~]'", utf8 "!&^#", utf8 ")(*$", utf8 "[ -=", utf8 "@%.;", utf8 "<,\x7d+"].get?
          (vowelCount E % 6) = some group ∧
      GeneratePassword s = Result.value (some out) none ∧
      out = E.take (s.PasswordLength - 4).toNat ++ group ∧
      out.drop (out.length - 4) = group ∧
      group ∈ [utf8 "`~]'", utf8 "!&^#", utf8 ")(*$", utf8 "[ -=", utf8 "@%.;", utf8 "<,\x7d+"] := by
  obtain ⟨g, hg, hmem, hlen⟩ := getSpecialCharacters_some (fullEncryptHash s)
  have hE := fullEncryptHash_length s
  refine ⟨fullEncryptHash s, g, (fullEncryptHash s).take (s.PasswordLength - 4).toNat ++ g,
    rfl, hE, rfl, hg, GeneratePassword_special s hM hD hS h4 h44 g hg, rfl, ?_, hmem⟩
  have hl : ((fullEncryptHash s).take (s.PasswordLength - 4).toNat).length
      = (s.PasswordLength - 4).toNat := by
    rw [List.length_take, hE]; omega
  rw [List.length_append, hl, hlen, Nat.add_sub_cancel]
  exact List.drop_left' hl

set_option maxRecDepth 100000 in
/-- C1 at MasterPhrase "x", Domain "y", PasswordLength 12: the encoded digest
has 9 vowels, 9 mod 6 = 3 selects the fourth group, and the password is the
first eight characters of the digest followed by that group. -/
theorem GeneratePassword_special_suffix_witness :
    GeneratePassword ⟨utf8 "x", utf8 "y", [], 12, true⟩
      = Result.value (some (utf8 "qIvqPcFF[ -=")) none := by
  obtain ⟨E, group, out, hE, -, -, hgroup, hres, hout, -, -⟩ :=
    GeneratePassword_special_suffix ⟨utf8 "x", utf8 "y", [], 12, true⟩
      (by decide) (by decide) rfl (by decide) (by decide)
  have hE' : E = utf8 "qIvqPcFFcejZoPUDDupRbJEMQNB7Umm1QrKUl3/wxto=" := hE.trans (by decide!)
  subst hE'
  have hg : group = utf8 "[ -=" := by
    have h9 : vowelCount (utf8 "qIvqPcFFcejZoPUDDupRbJEMQNB7Umm1QrKUl3/wxto=") % 6 = 3 := by decide
    rw [h9] at hgroup
    exact (Option.some.inj hgroup).symm
  rw [hres, hout, hg]
  decide

/-- C2: for settings with non-empty MasterPhrase and Domain, AddSpecialCharacters
unset and 0 ≤ PasswordLength ≤ 44, GeneratePassword returns, with a nil error,
exactly the first PasswordLength characters of the padded base64 text of the
SHA-256 digest of MasterPhrase:Domain:AdditionalInfo. -/
theorem GeneratePassword_plain_exact (s : Settings)
    (hM : s.MasterPhrase ≠ []) (hD : s.Domain ≠ []) (hS : s.AddSpecialCharacters = false)
    (h0 : 0 ≤ s.PasswordLength) (h44 : s.PasswordLength ≤ 44) :
    GeneratePassword s
      = Result.value
          (some ((Base64.EncodeToString (SHA256.Sum256
            (s.MasterPhrase ++ utf8 ":" ++ s.Domain ++ utf8 ":" ++ s.AdditionalInfo))).take
              s.PasswordLength.toNat))
          none :=
  GeneratePassword_plain s hM hD hS h0 h44

set_option maxRecDepth 100000 in
/-- C2 at MasterPhrase "x", Domain "y", PasswordLength 12: the password is the
first twelve characters of the encoded digest, computed here. -/
theorem GeneratePassword_plain_exact_witness :
    GeneratePassword ⟨utf8 "x", utf8 "y", [], 12, false⟩
      = Result.value (some (utf8 "qIvqPcFFcejZ")) none :=
  (GeneratePassword_plain_exact ⟨utf8 "x", utf8 "y", [], 12, false⟩
    (by decide) (by decide) rfl (by decide) (by decide)).trans (by decide!)

/-- C3 fails as stated: MasterPhrase "x", Domain "y" and PasswordLength -1 are
valid settings with PasswordLength ≤ 44, and GeneratePassword panics on the
slice with the negative bound; no password of length PasswordLength is
returned. -/
theorem GeneratePassword_length_negative_counterexample :
    (utf8 "x" ≠ [] ∧ utf8 "y" ≠ [] ∧ (-1 : Int) ≤ 44) ∧
    GeneratePassword ⟨utf8 "x", utf8 "y", [], -1, false⟩ = Result.panic ∧
    ¬ ∃ pw : GoString,
        GeneratePassword ⟨utf8 "x", utf8 "y", [], -1, false⟩ = Result.value (some pw) none ∧
        (pw.length : Int) = -1 := by
  have h : GeneratePassword ⟨utf8 "x", utf8 "y", [], -1, false⟩ = Result.panic :=
    GeneratePassword_negative _ (by decide) (by decide) (by decide)
  refine ⟨by decide, h, ?_⟩
  rintro ⟨pw, hpw, -⟩
  rw [h] at hpw
  exact Result.noConfusion hpw

/-- C3, amended: for settings with non-empty MasterPhrase and Domain and
0 ≤ PasswordLength ≤ 44, where moreover 4 ≤ PasswordLength when
AddSpecialCharacters is set, GeneratePassword returns a password with a nil
error and the length of the password equals PasswordLength. -/
theorem GeneratePassword_length (s : Settings)
    (hM : s.MasterPhrase ≠ []) (hD : s.Domain ≠ [])
    (h0 : 0 ≤ s.PasswordLength) (h44 : s.PasswordLength ≤ 44)
    (h4 : s.AddSpecialCharacters = true → 4 ≤ s.PasswordLength) :
    ∃ pw : GoString,
      GeneratePassword s = Result.value (some pw) none ∧ (pw.length : Int) = s.PasswordLength := by
  have hE := fullEncryptHash_length s
  cases hS : s.AddSpecialCharacters with
  | false =>
    refine ⟨_, GeneratePassword_plain s hM hD hS h0 h44, ?_⟩
    rw [List.length_take, hE]; omega
  | true =>
    obtain ⟨g, hg, -, hlen⟩ := getSpecialCharacters_some (fullEncryptHash s)
    refine ⟨_, GeneratePassword_special s hM hD hS (h4 hS) h44 g hg, ?_⟩
    have := h4 hS
    rw [List.length_append, List.length_take, hE, hlen]; omega

/-- C3, amended, at MasterPhrase "x", Domain "y", PasswordLength 4 with special
characters. -/
theorem GeneratePassword_length_witness :
    ∃ pw : GoString,
      GeneratePassword ⟨utf8 "x", utf8 "y", [], 4, true⟩ = Result.value (some pw) none ∧
      (pw.length : Int) = 4 :=
  GeneratePassword_length ⟨utf8 "x", utf8 "y", [], 4, true⟩
    (by decide) (by decide) (by decide) (by decide) (fun _ => by decide)

/-- C4: validateSettings returns ErrorEmptyPass exactly when MasterPhrase is
empty, ErrorEmptyDomain exactly when MasterPhrase is non-empty and Domain is
empty, and nil exactly when both are non-empty; AdditionalInfo, PasswordLength
and AddSpecialCharacters do not influence the result. -/
theorem validateSettings_characterised (M D A : GoString) (L : Int) (F : Bool) :
    (validateSettings ⟨M, D, A, L, F⟩ = some Error.ErrorEmptyPass ↔ M = []) ∧
    (validateSettings ⟨M, D, A, L, F⟩ = some Error.ErrorEmptyDomain ↔ M ≠ [] ∧ D = []) ∧
    (validateSettings ⟨M, D, A, L, F⟩ = none ↔ M ≠ [] ∧ D ≠ []) ∧
    (∀ (A' : GoString) (L' : Int) (F' : Bool),
      validateSettings ⟨M, D, A', L', F'⟩ = validateSettings ⟨M, D, A, L, F⟩) := by
  refine ⟨?_, ?_, ?_, fun _ _ _ => rfl⟩ <;>
    by_cases hM : M = [] <;> by_cases hD : D = [] <;> simp [validateSettings, hM, hD]

/-- C5: GeneratePassword returns (nil, ErrorEmptyPass) for every settings with
empty MasterPhrase, and (nil, ErrorEmptyDomain) for every settings with
non-empty MasterPhrase and empty Domain, whatever AdditionalInfo,
PasswordLength (of any sign and size) and AddSpecialCharacters are; the
password returned with the error is nil. -/
theorem GeneratePassword_validation_first (b : UInt8) (M D A : GoString) (L : Int) (F : Bool) :
    GeneratePassword ⟨[], D, A, L, F⟩ = Result.value none (some Error.ErrorEmptyPass) ∧
    GeneratePassword ⟨b :: M, [], A, L, F⟩ = Result.value none (some Error.ErrorEmptyDomain) :=
  ⟨rfl, rfl⟩

/-- C6: for settings with non-empty MasterPhrase and Domain and
PasswordLength > 44, with either value of AddSpecialCharacters, GeneratePassword
returns a nil password and an error that is neither ErrorEmptyPass nor
ErrorEmptyDomain and whose message is "Cannot generate password with so many
symbols. The current limit is [44]."; with PasswordLength = 44 it returns a
password and a nil error. -/
theorem GeneratePassword_too_long_error (s : Settings)
    (hM : s.MasterPhrase ≠ []) (hD : s.Domain ≠ []) :
    (44 < s.PasswordLength →
      ∃ err : Error,
        GeneratePassword s = Result.value none (some err) ∧
        err ≠ Error.ErrorEmptyPass ∧ err ≠ Error.ErrorEmptyDomain ∧
        err.message
          = utf8 "Cannot generate password with so many symbols. The current limit is [44].") ∧
    (s.PasswordLength = 44 →
      ∃ pw : GoString, GeneratePassword s = Result.value (some pw) none) := by
  constructor
  · intro h
    refine ⟨_, GeneratePassword_too_long s hM hD h, ?_, ?_, ?_⟩
    · intro h'; exact Error.noConfusion h'
    · intro h'; exact Error.noConfusion h'
    · decide
  · intro h
    have hE := fullEncryptHash_length s
    cases hS : s.AddSpecialCharacters with
    | false => exact ⟨_, GeneratePassword_plain s hM hD hS (by omega) (by omega)⟩
    | true =>
      obtain ⟨g, hg, -, -⟩ := getSpecialCharacters_some (fullEncryptHash s)
      exact ⟨_, GeneratePassword_special s hM hD hS (by omega) (by omega) g hg⟩

/-- C6 at MasterPhrase "x", Domain "y", PasswordLength 45. -/
theorem GeneratePassword_too_long_error_witness :
    ∃ err : Error,
      GeneratePassword ⟨utf8 "x", utf8 "y", [], 45, true⟩ = Result.value none (some err) ∧
      err ≠ Error.ErrorEmptyPass ∧ err ≠ Error.ErrorEmptyDomain ∧
      err.message
        = utf8 "Cannot generate password with so many symbols. The current limit is [44]." :=
  (GeneratePassword_too_long_error ⟨utf8 "x", utf8 "y", [], 45, true⟩
    (by decide) (by decide)).1 (by decide)

set_option maxRecDepth 100000 in
/-- C7 fails as stated: with MasterPhrase "x", Domain "y" and PasswordLength
45, the first call of GeneratePassword after initialisation returns the error
object number 2 and the second call returns the error object number 3; both hold
the same message, but they are two objects, so the two results are not identical
(the two error values are unequal under `==`). -/
theorem GeneratePassword_twice_counterexample :
    (Package.initial.GeneratePassword ⟨utf8 "x", utf8 "y", [], 45, true⟩).1
      = Returned.value none (some
          ⟨2, utf8 "Cannot generate password with so many symbols. The current limit is [44]."⟩) ∧
    ((Package.initial.GeneratePassword ⟨utf8 "x", utf8 "y", [], 45, true⟩).2.GeneratePassword
        ⟨utf8 "x", utf8 "y", [], 45, true⟩).1
      = Returned.value none (some
          ⟨3, utf8 "Cannot generate password with so many symbols. The current limit is [44]."⟩) ∧
    (Package.initial.GeneratePassword ⟨utf8 "x", utf8 "y", [], 45, true⟩).1
      ≠ ((Package.initial.GeneratePassword ⟨utf8 "x", utf8 "y", [], 45, true⟩).2.GeneratePassword
          ⟨utf8 "x", utf8 "y", [], 45, true⟩).1 := by
  decide!

/-- C7, amended: in every state of the package that calls of GeneratePassword
can reach, a call of GeneratePassword writes no package-level variable, and two
successive calls on the same settings return identical results (the same
password bytes, the same panic, or the identical error object ErrorEmptyPass or
ErrorEmptyDomain) unless PasswordLength > 44 with non-empty MasterPhrase and
Domain; in that case each call returns a nil password and a newly allocated
error object, and the two objects hold the same message.  With the identity of
that new object left out, the result of each call is the function
GeneratePassword of the five fields of the settings, whatever the state. -/
theorem Package.GeneratePassword_twice (pkg : Package) (s : Settings) (h : pkg.Reachable) :
    ((pkg.GeneratePassword s).2.ErrorEmptyPass = pkg.ErrorEmptyPass ∧
      (pkg.GeneratePassword s).2.ErrorEmptyDomain = pkg.ErrorEmptyDomain ∧
      (pkg.GeneratePassword s).2.specialCharsGroups = pkg.specialCharsGroups) ∧
    pkg.observe (pkg.GeneratePassword s).1 = Generator.GeneratePassword s ∧
    (pkg.GeneratePassword s).2.observe ((pkg.GeneratePassword s).2.GeneratePassword s).1
      = Generator.GeneratePassword s ∧
    (s.MasterPhrase = [] ∨ s.Domain = [] ∨ s.PasswordLength ≤ 44 →
      ((pkg.GeneratePassword s).2.GeneratePassword s).1 = (pkg.GeneratePassword s).1) ∧
    (s.MasterPhrase ≠ [] → s.Domain ≠ [] → 44 < s.PasswordLength →
      ∃ e₁ e₂ : ErrorValue,
        (pkg.GeneratePassword s).1 = Returned.value none (some e₁) ∧
        ((pkg.GeneratePassword s).2.GeneratePassword s).1 = Returned.value none (some e₂) ∧
        e₁.msg = e₂.msg ∧ e₁.addr < e₂.addr ∧
        e₁.msg
          = utf8 "Cannot generate password with so many symbols. The current limit is [44].") := by
  have hI := h.intact
  have hI' := (Package.Reachable.call pkg s h).intact
  obtain ⟨v1, v2, v3, v4⟩ := Package.GeneratePassword_variables pkg s
  have e1 := Package.GeneratePassword_eq pkg hI s
  have e2 := Package.GeneratePassword_eq _ hI' s
  refine ⟨⟨v1, v2, v3⟩, ?_, ?_, ?_, ?_⟩
  · rw [e1]; exact Package.observe_reify pkg hI _
  · rw [e2]; exact Package.observe_reify _ hI' _
  · intro hreg
    rw [e1, e2]
    apply Package.reify_congr _ _ v1 v2
    intro pw msg hr
    obtain ⟨hM, hD, hL⟩ := GeneratePassword_Errorf s pw msg hr
    rcases hreg with h | h | h
    · exact hM h
    · exact hD h
    · omega
  · intro hM hD hL
    have hG := GeneratePassword_too_long s hM hD hL
    rw [hG] at e1 e2
    have hst : (pkg.GeneratePassword s).2.allocated = pkg.allocated + 1 := by
      unfold Package.GeneratePassword
      rw [Package.validateSettings, if_neg hM, if_neg hD]
      dsimp only
      rw [if_pos (by rw [fullEncryptHash_length]; exact_mod_cast hL)]
      rfl
    have hmsg : utf8 "Cannot generate password with so many symbols. The current limit is ["
          ++ utf8 "44" ++ utf8 "]."
        = utf8 "Cannot generate password with so many symbols. The current limit is [44]." := by
      decide
    refine ⟨_, _, e1, e2, rfl, ?_, hmsg⟩
    show pkg.allocated < (pkg.GeneratePassword s).2.allocated
    omega

set_option maxRecDepth 100000 in
/-- C7, amended, at the initial state, MasterPhrase "x", Domain "y",
PasswordLength 12 with special characters: both calls return the password
"qIvqPcFF[ -=". -/
theorem Package.GeneratePassword_twice_witness :
    ((Package.initial.GeneratePassword ⟨utf8 "x", utf8 "y", [], 12, true⟩).2.GeneratePassword
        ⟨utf8 "x", utf8 "y", [], 12, true⟩).1
      = (Package.initial.GeneratePassword ⟨utf8 "x", utf8 "y", [], 12, true⟩).1 ∧
    (Package.initial.GeneratePassword ⟨utf8 "x", utf8 "y", [], 12, true⟩).1
      = Returned.value (some (utf8 "qIvqPcFF[ -=")) none :=
  ⟨(Package.GeneratePassword_twice Package.initial ⟨utf8 "x", utf8 "y", [], 12, true⟩
      Package.Reachable.initial).2.2.2.1 (Or.inr (Or.inr (by decide))),
    by decide!⟩

/-- C8: the text hashed by GeneratePassword is
MasterPhrase ++ ":" ++ Domain ++ ":" ++ AdditionalInfo, and with two of the
three fields held fixed, two settings have the same hashed text exactly when
the third field is the same: changing one field alone changes the input of the
digest. -/
theorem passToEncrypt_injective_in_each_field (M D A : GoString) (L L' : Int) (F F' : Bool) :
    passToEncrypt ⟨M, D, A, L, F⟩ = M ++ utf8 ":" ++ D ++ utf8 ":" ++ A ∧
    (∀ M' : GoString, passToEncrypt ⟨M', D, A, L', F'⟩ = passToEncrypt ⟨M, D, A, L, F⟩ ↔ M' = M) ∧
    (∀ D' : GoString, passToEncrypt ⟨M, D', A, L', F'⟩ = passToEncrypt ⟨M, D, A, L, F⟩ ↔ D' = D) ∧
    (∀ A' : GoString, passToEncrypt ⟨M, D, A', L', F'⟩ = passToEncrypt ⟨M, D, A, L, F⟩ ↔ A' = A) := by
  refine ⟨rfl, fun M' => ?_, fun D' => ?_, fun A' => ?_⟩
  · simp only [passToEncrypt, List.append_assoc]
    exact List.append_left_inj _
  · simp only [passToEncrypt, List.append_assoc]
    rw [List.append_right_inj, List.append_right_inj, List.append_left_inj]
  · simp only [passToEncrypt]
    exact List.append_right_inj _

/-- C9: for every MasterPhrase, Domain and AdditionalInfo the SHA-256 digest
has 32 bytes and its padded base64 text has exactly 44 characters, so the limit
on PasswordLength is 44 for every input: valid settings are answered with the
"so many symbols" error exactly when PasswordLength exceeds 44. -/
theorem fullEncryptHash_length_is_44 (M D A : GoString) (L : Int) (F : Bool) :
    (SHA256.Sum256 (M ++ utf8 ":" ++ D ++ utf8 ":" ++ A)).length = 32 ∧
    (Base64.EncodeToString (SHA256.Sum256 (M ++ utf8 ":" ++ D ++ utf8 ":" ++ A))).length = 44 ∧
    (fullEncryptHash ⟨M, D, A, L, F⟩).length = 44 ∧
    ∀ (b c : UInt8),
      ((∃ msg : GoString,
          GeneratePassword ⟨b :: M, c :: D, A, L, F⟩ = Result.value none (some (Error.Errorf msg)))
        ↔ 44 < L) := by
  refine ⟨SHA256.Sum256_length _, fullEncryptHash_length ⟨M, D, A, L, F⟩,
    fullEncryptHash_length _, fun b c => ⟨?_, fun h => ⟨_, GeneratePassword_too_long _ (by simp) (by simp) h⟩⟩⟩
  rintro ⟨msg, hmsg⟩
  by_contra hL
  have hM : (Settings.mk (b :: M) (c :: D) A L F).MasterPhrase ≠ [] := by simp
  have hD : (Settings.mk (b :: M) (c :: D) A L F).Domain ≠ [] := by simp
  have h44 : L ≤ 44 := by omega
  by_cases h0 : L < 0
  · rw [GeneratePassword_negative _ hM hD h0] at hmsg
    exact Result.noConfusion hmsg
  cases F with
  | false =>
    rw [GeneratePassword_plain _ hM hD rfl (by simpa using h0) h44] at hmsg
    simp at hmsg
  | true =>
    by_cases h4 : L < 4
    · rw [GeneratePassword_short _ hM hD rfl h4] at hmsg
      exact Result.noConfusion hmsg
    · obtain ⟨g, hg, -, -⟩ := getSpecialCharacters_some (fullEncryptHash ⟨b :: M, c :: D, A, L, true⟩)
      rw [GeneratePassword_special _ hM hD rfl (by simpa using h4) h44 g hg] at hmsg
      simp at hmsg

/-- C10: DefaultSettings has PasswordLength 12, AddSpecialCharacters set and
empty MasterPhrase, Domain and AdditionalInfo, and GeneratePassword on it
returns a nil password with ErrorEmptyPass. -/
theorem DefaultSettings_values :
    DefaultSettings.PasswordLength = 12 ∧ DefaultSettings.AddSpecialCharacters = true ∧
    DefaultSettings.MasterPhrase = [] ∧ DefaultSettings.Domain = [] ∧
    DefaultSettings.AdditionalInfo = [] ∧
    GeneratePassword DefaultSettings = Result.value none (some Error.ErrorEmptyPass) :=
  ⟨rfl, rfl, rfl, rfl, rfl, rfl⟩

/-- C11: for settings with non-empty MasterPhrase and Domain,
AddSpecialCharacters set and 0 ≤ PasswordLength ≤ 3, the first slice
fullEncryptHash[:PasswordLength] succeeds, the group charsToAdd has 4 bytes, the
bound len(trimmedPass) - len(charsToAdd) of the overwrite slice equals
PasswordLength - 4 and is negative, and GeneratePassword panics: it returns
neither a password nor an error value. -/
theorem GeneratePassword_overwrite_underflow (s : Settings)
    (hM : s.MasterPhrase ≠ []) (hD : s.Domain ≠ []) (hS : s.AddSpecialCharacters = true)
    (h0 : 0 ≤ s.PasswordLength) (h3 : s.PasswordLength ≤ 3) :
    (∃ trimmedPass charsToAdd : GoString,
      sliceTo (fullEncryptHash s) s.PasswordLength = some trimmedPass ∧
      getSpecialCharacters (fullEncryptHash s) = some charsToAdd ∧
      charsToAdd.length = 4 ∧
      (trimmedPass.length : Int) - (charsToAdd.length : Int) = s.PasswordLength - 4 ∧
      (trimmedPass.length : Int) - (charsToAdd.length : Int) < 0 ∧
      sliceTo trimmedPass ((trimmedPass.length : Int) - (charsToAdd.length : Int)) = none) ∧
    GeneratePassword s = Result.panic ∧
    ¬ ∃ (pw : Option GoString) (err : Option Error), GeneratePassword s = Result.value pw err := by
  have hE := fullEncryptHash_length s
  obtain ⟨g, hg, -, hlen⟩ := getSpecialCharacters_some (fullEncryptHash s)
  have hp := GeneratePassword_short s hM hD hS (by omega)
  have hlt : ((List.take s.PasswordLength.toNat (fullEncryptHash s)).length : Int)
      = s.PasswordLength := by
    rw [List.length_take, hE]; omega
  refine ⟨⟨_, g, sliceTo_of_le _ _ h0 (by rw [hE]; push_cast; omega), hg, hlen, ?_, ?_,
    sliceTo_of_neg _ _ ?_⟩, hp, ?_⟩
  · rw [hlt, hlen]; push_cast; rfl
  · rw [hlt, hlen]; push_cast; omega
  · rw [hlt, hlen]; push_cast; omega
  · rintro ⟨pw, err, h⟩
    rw [hp] at h
    exact Result.noConfusion h

/-- C11 at MasterPhrase "x", Domain "y", PasswordLength 3. -/
theorem GeneratePassword_overwrite_underflow_witness :
    GeneratePassword ⟨utf8 "x", utf8 "y", [], 3, true⟩ = Result.panic :=
  (GeneratePassword_overwrite_underflow ⟨utf8 "x", utf8 "y", [], 3, true⟩
    (by decide) (by decide) rfl (by decide) (by decide)).2.1

theorem vowelCount_sum (s : GoString) :
    vowelCount s = Count (ToLower s) 97 + Count (ToLower s) 101 + Count (ToLower s) 105
      + Count (ToLower s) 111 + Count (ToLower s) 117 + Count (ToLower s) 121 := by
  have hv : vowels = [97, 101, 105, 111, 117, 121] := by decide
  rw [vowelCount, hv]
  simp only [List.foldl, Nat.zero_add]

set_option maxRecDepth 100000 in
theorem vowelCount_single (c : UInt8) :
    vowelCount [c] = if c ∈ utf8 "aeiouyAEIOUY" then 1 else 0 := by
  rcases c with ⟨v⟩
  revert v
  decide!

theorem vowelCount_cons (c : UInt8) (s : GoString) :
    vowelCount (c :: s) = vowelCount [c] + vowelCount s := by
  simp only [vowelCount_sum, ToLower, Count, List.map_cons, List.map_nil, List.count_cons,
    List.count_nil]
  omega

theorem vowelCount_eq_countP (s : GoString) : vowelCount s = vowelPositions s := by
  induction s with
  | nil => rfl
  | cons c s ih =>
    rw [vowelCount_cons, vowelCount_single, ih, vowelPositions, vowelPositions, List.countP_cons]
    simp only [decide_eq_true_eq]
    omega

set_option maxRecDepth 100000 in
theorem vowelCount_single_other (c : UInt8) (h : c ∈ utf8 "0123456789+/=") :
    vowelCount [c] = 0 := by
  rcases c with ⟨v⟩
  revert v
  decide!

theorem vowelCount_filter (s : GoString) :
    vowelCount (s.filter fun c => decide (c ∉ utf8 "0123456789+/=")) = vowelCount s := by
  induction s with
  | nil => rfl
  | cons c s ih =>
    by_cases hc : c ∈ utf8 "0123456789+/="
    · rw [List.filter_cons_of_neg (by simpa using hc), ih, vowelCount_cons c s,
        vowelCount_single_other c hc, Nat.zero_add]
    · rw [List.filter_cons_of_pos (by simpa using hc), vowelCount_cons, ih, ← vowelCount_cons]

theorem vowelCount_le_length (s : GoString) : vowelCount s ≤ s.length := by
  rw [vowelCount_eq_countP]
  exact List.countP_le_length _

/-- C12: for every string s over the base64 output alphabet (the 64 characters
of the standard alphabet and the padding character), the vowelCount computed by
getSpecialCharacters, which is the sum over the six bytes of "aeiouy" of the
number of occurrences of that byte in the lower-cased s, equals the number of
positions of s holding one of the twelve characters a e i o u y A E I O U Y;
removing the digits and the characters + / = from s does not change the count;
and vowelCount is at most the length of s. -/
theorem vowelCount_counts_vowel_positions (s : GoString)
    (_hs : ∀ c ∈ s, c ∈ Base64.encodeStd ∨ c = Base64.StdPadding) :
    vowelCount s = ((utf8 "aeiouy").map fun v => Count (ToLower s) v).sum ∧
    vowelCount s = vowelPositions s ∧
    vowelCount (s.filter fun c => decide (c ∉ utf8 "0123456789+/=")) = vowelCount s ∧
    0 ≤ vowelCount s ∧ vowelCount s ≤ s.length := by
  refine ⟨?_, vowelCount_eq_countP s, vowelCount_filter s, Nat.zero_le _, vowelCount_le_length s⟩
  have hv : utf8 "aeiouy" = [97, 101, 105, 111, 117, 121] := by decide
  rw [vowelCount_sum, hv]
  simp only [List.map_cons, List.map_nil, List.sum_cons, List.sum_nil]
  omega

/-- C12 at the string "aE1+Yz=": positions 0, 1 and 4 hold vowels, so the
count is 3. -/
theorem vowelCount_counts_vowel_positions_witness :
    vowelCount (utf8 "aE1+Yz=") = vowelPositions (utf8 "aE1+Yz=") ∧
    vowelPositions (utf8 "aE1+Yz=") = 3 ∧ vowelCount (utf8 "aE1+Yz=") = 3 :=
  ⟨(vowelCount_counts_vowel_positions (utf8 "aE1+Yz=") (by decide)).2.1, by decide, by decide⟩

/-- C13: with MasterPhrase, Domain and AdditionalInfo fixed (MasterPhrase and
Domain non-empty) and AddSpecialCharacters set, any two PasswordLength values
L₁ and L₂ between 4 and 44 give passwords whose last four characters are the
same group, the one getSpecialCharacters selects from the full 44-character
encoded digest. -/
theorem GeneratePassword_same_group (M D A : GoString) (L₁ L₂ : Int)
    (hM : M ≠ []) (hD : D ≠ [])
    (h₁ : 4 ≤ L₁) (h₁' : L₁ ≤ 44) (h₂ : 4 ≤ L₂) (h₂' : L₂ ≤ 44) :
    ∃ group out₁ out₂ : GoString,
      getSpecialCharacters
        (Base64.EncodeToString (SHA256.Sum256 (M ++ utf8 ":" ++ D ++ utf8 ":" ++ A))) = some group ∧
      (Base64.EncodeToString (SHA256.Sum256 (M ++ utf8 ":" ++ D ++ utf8 ":" ++ A))).length = 44 ∧
      group ∈ specialCharsGroups ∧
      GeneratePassword ⟨M, D, A, L₁, true⟩ = Result.value (some out₁) none ∧
      GeneratePassword ⟨M, D, A, L₂, true⟩ = Result.value (some out₂) none ∧
      out₁.drop (out₁.length - 4) = group ∧
      out₂.drop (out₂.length - 4) = group := by
  have hE : ∀ L : Int, fullEncryptHash ⟨M, D, A, L, true⟩
      = Base64.EncodeToString (SHA256.Sum256 (M ++ utf8 ":" ++ D ++ utf8 ":" ++ A)) :=
    fun _ => rfl
  have hlen44 := fullEncryptHash_length ⟨M, D, A, L₁, true⟩
  obtain ⟨g, hg, hmem, hlen⟩ := getSpecialCharacters_some (fullEncryptHash ⟨M, D, A, L₁, true⟩)
  have key : ∀ L : Int, 4 ≤ L → L ≤ 44 →
      ∃ out : GoString, GeneratePassword ⟨M, D, A, L, true⟩ = Result.value (some out) none ∧
        out.drop (out.length - 4) = g := by
    intro L h4 h44
    refine ⟨_, GeneratePassword_special ⟨M, D, A, L, true⟩ hM hD rfl h4 h44 g hg, ?_⟩
    have hl : ((fullEncryptHash ⟨M, D, A, L, true⟩).take (L - 4).toNat).length
        = (L - 4).toNat := by
      rw [List.length_take, fullEncryptHash_length]
      simp only [Nat.min_def]
      split <;> omega
    simp only [List.length_append, hl, hlen, Nat.add_sub_cancel]
    exact List.drop_left' hl
  obtain ⟨out₁, ho₁, hd₁⟩ := key L₁ h₁ h₁'
  obtain ⟨out₂, ho₂, hd₂⟩ := key L₂ h₂ h₂'
  exact ⟨g, out₁, out₂, hg, hlen44, hmem, ho₁, ho₂, hd₁, hd₂⟩

/-- C13 at MasterPhrase "x", Domain "y" with PasswordLength 4 and 44. -/
theorem GeneratePassword_same_group_witness :
    ∃ group out₁ out₂ : GoString,
      getSpecialCharacters
        (Base64.EncodeToString (SHA256.Sum256 (utf8 "x" ++ utf8 ":" ++ utf8 "y" ++ utf8 ":" ++ [])))
          = some group ∧
      (Base64.EncodeToString
        (SHA256.Sum256 (utf8 "x" ++ utf8 ":" ++ utf8 "y" ++ utf8 ":" ++ []))).length = 44 ∧
      group ∈ specialCharsGroups ∧
      GeneratePassword ⟨utf8 "x", utf8 "y", [], 4, true⟩ = Result.value (some out₁) none ∧
      GeneratePassword ⟨utf8 "x", utf8 "y", [], 44, true⟩ = Result.value (some out₂) none ∧
      out₁.drop (out₁.length - 4) = group ∧
      out₂.drop (out₂.length - 4) = group :=
  GeneratePassword_same_group (utf8 "x") (utf8 "y") [] 4 44
    (by decide) (by decide) (by decide) (by decide) (by decide) (by decide)

/-- C14: for every input string, the empty one included, the index
vowelCount mod 6 is below 6 = len(specialCharsGroups), the table lookup of
getSpecialCharacters does not panic, and the result is one of the six entries
of specialCharsGroups; each of the six entries has exactly 4 bytes.  The lookup
succeeds for every value the vowel count could have. -/
theorem getSpecialCharacters_total (encrypted : GoString) :
    vowelCount encrypted % specialCharsGroups.length < 6 ∧
    specialCharsGroups.length = 6 ∧
    (∃ group : GoString,
      getSpecialCharacters encrypted = some group ∧ group ∈ specialCharsGroups) ∧
    (∃ group : GoString, getSpecialCharacters [] = some group ∧ group ∈ specialCharsGroups) ∧
    (∀ group ∈ specialCharsGroups, group.length = 4) ∧
    (∀ n : Nat, ∃ group : GoString,
      index specialCharsGroups (n % specialCharsGroups.length) = some group ∧
      group ∈ specialCharsGroups) := by
  refine ⟨Nat.mod_lt _ (by decide), rfl, ?_, ?_, by decide, fun n => ?_⟩
  · obtain ⟨g, hg, hmem, -⟩ := getSpecialCharacters_some encrypted
    exact ⟨g, hg, hmem⟩
  · obtain ⟨g, hg, hmem, -⟩ := getSpecialCharacters_some []
    exact ⟨g, hg, hmem⟩
  · obtain ⟨g, hg, hmem, -⟩ := specialCharsGroups_get (n % 6) (Nat.mod_lt _ (by decide))
    exact ⟨g, hg, hmem⟩

theorem GeneratePassword_congr (s₁ s₂ : Settings)
    (hv : validateSettings s₁ = validateSettings s₂)
    (hp : passToEncrypt s₁ = passToEncrypt s₂)
    (hL : s₁.PasswordLength = s₂.PasswordLength)
    (hF : s₁.AddSpecialCharacters = s₂.AddSpecialCharacters) :
    GeneratePassword s₁ = GeneratePassword s₂ := by
  simp only [GeneratePassword, fullEncryptHash, hv, hp, hL, hF]

/-- C15: the hashed text MasterPhrase:Domain:AdditionalInfo does not determine
the fields.  The settings (MasterPhrase "a:b", Domain "c") and (MasterPhrase
"a", Domain "b:c"), with the same AdditionalInfo, PasswordLength and flag,
differ in MasterPhrase and in Domain, have the same hashed text "a:b:c:" and
both return the same password; and any two settings with non-empty MasterPhrase
and Domain, equal hashed text, equal PasswordLength and equal
AddSpecialCharacters give equal results. -/
theorem GeneratePassword_join_not_injective :
    ((Settings.mk (utf8 "a:b") (utf8 "c") [] 12 true).MasterPhrase
        ≠ (Settings.mk (utf8 "a") (utf8 "b:c") [] 12 true).MasterPhrase ∧
      (Settings.mk (utf8 "a:b") (utf8 "c") [] 12 true).Domain
        ≠ (Settings.mk (utf8 "a") (utf8 "b:c") [] 12 true).Domain ∧
      passToEncrypt ⟨utf8 "a:b", utf8 "c", [], 12, true⟩ = utf8 "a:b:c:" ∧
      passToEncrypt ⟨utf8 "a", utf8 "b:c", [], 12, true⟩ = utf8 "a:b:c:" ∧
      GeneratePassword ⟨utf8 "a:b", utf8 "c", [], 12, true⟩
        = GeneratePassword ⟨utf8 "a", utf8 "b:c", [], 12, true⟩ ∧
      ∃ pw : GoString,
        GeneratePassword ⟨utf8 "a", utf8 "b:c", [], 12, true⟩ = Result.value (some pw) none) ∧
    (∀ s₁ s₂ : Settings,
      s₁.MasterPhrase ≠ [] → s₁.Domain ≠ [] → s₂.MasterPhrase ≠ [] → s₂.Domain ≠ [] →
      passToEncrypt s₁ = passToEncrypt s₂ → s₁.PasswordLength = s₂.PasswordLength →
      s₁.AddSpecialCharacters = s₂.AddSpecialCharacters →
      GeneratePassword s₁ = GeneratePassword s₂) := by
  have general : ∀ s₁ s₂ : Settings,
      s₁.MasterPhrase ≠ [] → s₁.Domain ≠ [] → s₂.MasterPhrase ≠ [] → s₂.Domain ≠ [] →
      passToEncrypt s₁ = passToEncrypt s₂ → s₁.PasswordLength = s₂.PasswordLength →
      s₁.AddSpecialCharacters = s₂.AddSpecialCharacters →
      GeneratePassword s₁ = GeneratePassword s₂ := by
    intro s₁ s₂ hM₁ hD₁ hM₂ hD₂ hp hL hF
    exact GeneratePassword_congr s₁ s₂
      ((validateSettings_of_valid s₁ hM₁ hD₁).trans (validateSettings_of_valid s₂ hM₂ hD₂).symm)
      hp hL hF
  refine ⟨⟨by decide, by decide, by decide, by decide, ?_, ?_⟩, general⟩
  · exact general _ _ (by decide) (by decide) (by decide) (by decide) (by decide) rfl rfl
  · obtain ⟨g, hg, -, -⟩ :=
      getSpecialCharacters_some (fullEncryptHash ⟨utf8 "a", utf8 "b:c", [], 12, true⟩)
    exact ⟨_, GeneratePassword_special _ (by decide) (by decide) rfl (by decide) (by decide) g hg⟩

set_option maxRecDepth 100000 in
/-- C15 at the two settings of the example: both return the password
"HpllNUl3!&^#". -/
theorem GeneratePassword_join_not_injective_witness :
    GeneratePassword ⟨utf8 "a:b", utf8 "c", [], 12, true⟩
      = Result.value (some (utf8 "HpllNUl3!&^#")) none ∧
    GeneratePassword ⟨utf8 "a", utf8 "b:c", [], 12, true⟩
      = Result.value (some (utf8 "HpllNUl3!&^#")) none := by
  have h := GeneratePassword_join_not_injective.2
    ⟨utf8 "a:b", utf8 "c", [], 12, true⟩ ⟨utf8 "a", utf8 "b:c", [], 12, true⟩
    (by decide) (by decide) (by decide) (by decide) (by decide) rfl rfl
  have h₂ : GeneratePassword ⟨utf8 "a", utf8 "b:c", [], 12, true⟩
      = Result.value (some (utf8 "HpllNUl3!&^#")) none := by decide!
  exact ⟨h.trans h₂, h₂⟩

/-- C16: for settings with non-empty MasterPhrase and Domain, GeneratePassword
returns a value (a password or an error) rather than panicking on an
out-of-range slice exactly when PasswordLength > 44 (it returns the error), or
AddSpecialCharacters is unset and 0 ≤ PasswordLength ≤ 44, or
AddSpecialCharacters is set and 4 ≤ PasswordLength ≤ 44.  A negative
PasswordLength is not rejected by the length test: the slice
fullEncryptHash[:PasswordLength] is taken with the negative bound and
GeneratePassword panics, returning no error value. -/
theorem GeneratePassword_returns_iff (s : Settings)
    (hM : s.MasterPhrase ≠ []) (hD : s.Domain ≠ []) :
    ((∃ (pw : Option GoString) (err : Option Error), GeneratePassword s = Result.value pw err)
      ↔ (44 < s.PasswordLength
          ∨ (s.AddSpecialCharacters = false ∧ 0 ≤ s.PasswordLength ∧ s.PasswordLength ≤ 44)
          ∨ (s.AddSpecialCharacters = true ∧ 4 ≤ s.PasswordLength ∧ s.PasswordLength ≤ 44))) ∧
    (44 < s.PasswordLength →
      ∃ err : Error, GeneratePassword s = Result.value none (some err)) ∧
    (s.PasswordLength < 0 →
      ¬ ((fullEncryptHash s).length : Int) < s.PasswordLength ∧
      sliceTo (fullEncryptHash s) s.PasswordLength = none ∧
      GeneratePassword s = Result.panic ∧
      ¬ ∃ (pw : Option GoString) (err : Error), GeneratePassword s = Result.value pw (some err)) := by
  have hE := fullEncryptHash_length s
  refine ⟨⟨?_, ?_⟩, fun h => ⟨_, GeneratePassword_too_long s hM hD h⟩, fun h => ?_⟩
  · rintro ⟨pw, err, hv⟩
    by_contra hreg
    have hpanic : GeneratePassword s = Result.panic := by
      by_cases h0 : s.PasswordLength < 0
      · exact GeneratePassword_negative s hM hD h0
      · cases hS : s.AddSpecialCharacters with
        | false => exact absurd (Or.inr (Or.inl ⟨hS, by omega, by omega⟩)) hreg
        | true =>
          apply GeneratePassword_short s hM hD hS
          by_contra h4
          exact hreg (Or.inr (Or.inr ⟨hS, by omega, by omega⟩))
    rw [hpanic] at hv
    exact Result.noConfusion hv
  · rintro (h | ⟨hS, h0, h44⟩ | ⟨hS, h4, h44⟩)
    · exact ⟨_, _, GeneratePassword_too_long s hM hD h⟩
    · exact ⟨_, _, GeneratePassword_plain s hM hD hS h0 h44⟩
    · obtain ⟨g, hg, -, -⟩ := getSpecialCharacters_some (fullEncryptHash s)
      exact ⟨_, _, GeneratePassword_special s hM hD hS h4 h44 g hg⟩
  · have hp := GeneratePassword_negative s hM hD h
    refine ⟨by rw [hE]; push_cast; omega, sliceTo_of_neg _ _ h, hp, ?_⟩
    rintro ⟨pw, err, hv⟩
    rw [hp] at hv
    exact Result.noConfusion hv

/-- C16 at MasterPhrase "x", Domain "y", PasswordLength -1: the slice bound is
negative and the call panics. -/
theorem GeneratePassword_returns_iff_witness :
    sliceTo (fullEncryptHash ⟨utf8 "x", utf8 "y", [], -1, true⟩) (-1) = none ∧
    GeneratePassword ⟨utf8 "x", utf8 "y", [], -1, true⟩ = Result.panic :=
  have h := (GeneratePassword_returns_iff ⟨utf8 "x", utf8 "y", [], -1, true⟩
    (by decide) (by decide)).2.2 (by decide)
  ⟨h.2.1, h.2.2.1⟩

/-- C17: with MasterPhrase, Domain and AdditionalInfo fixed (MasterPhrase and
Domain non-empty): without special characters, for 0 ≤ L₁ ≤ L₂ ≤ 44 the
password for PasswordLength L₁ is an initial segment of the password for
PasswordLength L₂; and for 4 ≤ L ≤ 44 the passwords with and without special
characters have the same first L - 4 characters. -/
theorem GeneratePassword_shared_initial_segment (M D A : GoString)
    (hM : M ≠ []) (hD : D ≠ []) :
    (∀ L₁ L₂ : Int, 0 ≤ L₁ → L₁ ≤ L₂ → L₂ ≤ 44 →
      ∃ out₁ out₂ : GoString,
        GeneratePassword ⟨M, D, A, L₁, false⟩ = Result.value (some out₁) none ∧
        GeneratePassword ⟨M, D, A, L₂, false⟩ = Result.value (some out₂) none ∧
        out₁ <+: out₂ ∧ out₂.take L₁.toNat = out₁) ∧
    (∀ L : Int, 4 ≤ L → L ≤ 44 →
      ∃ outT outF : GoString,
        GeneratePassword ⟨M, D, A, L, true⟩ = Result.value (some outT) none ∧
        GeneratePassword ⟨M, D, A, L, false⟩ = Result.value (some outF) none ∧
        outT.take (L - 4).toNat = outF.take (L - 4).toNat ∧
        (outT.take (L - 4).toNat).length = (L - 4).toNat) := by
  constructor
  · intro L₁ L₂ h0 h12 h44
    have hE : fullEncryptHash ⟨M, D, A, L₁, false⟩ = fullEncryptHash ⟨M, D, A, L₂, false⟩ := rfl
    have ht : (fullEncryptHash ⟨M, D, A, L₂, false⟩).take L₁.toNat
        = ((fullEncryptHash ⟨M, D, A, L₂, false⟩).take L₂.toNat).take L₁.toNat := by
      rw [List.take_take, min_eq_left (by omega)]
    refine ⟨_, _, GeneratePassword_plain ⟨M, D, A, L₁, false⟩ hM hD rfl h0 (le_trans h12 h44),
      GeneratePassword_plain ⟨M, D, A, L₂, false⟩ hM hD rfl (le_trans h0 h12) h44, ?_, ?_⟩
    · show (fullEncryptHash ⟨M, D, A, L₁, false⟩).take L₁.toNat <+: _
      rw [hE, ht]
      exact List.take_prefix _ _
    · show _ = (fullEncryptHash ⟨M, D, A, L₁, false⟩).take L₁.toNat
      rw [hE, ht]
  · intro L h4 h44
    obtain ⟨g, hg, -, -⟩ := getSpecialCharacters_some (fullEncryptHash ⟨M, D, A, L, true⟩)
    have hE : fullEncryptHash ⟨M, D, A, L, false⟩ = fullEncryptHash ⟨M, D, A, L, true⟩ := rfl
    have hl : ((fullEncryptHash ⟨M, D, A, L, true⟩).take (L - 4).toNat).length
        = (L - 4).toNat := by
      rw [List.length_take, fullEncryptHash_length]
      simp only [Nat.min_def]
      split <;> omega
    refine ⟨_, _, GeneratePassword_special ⟨M, D, A, L, true⟩ hM hD rfl h4 h44 g hg,
      GeneratePassword_plain ⟨M, D, A, L, false⟩ hM hD rfl (le_trans (by decide) h4) h44, ?_, ?_⟩
    · have hle : (L - 4).toNat ≤ L.toNat := by omega
      rw [List.take_left' hl, hE, List.take_take]
      exact congrArg (fun n => List.take n _) (min_eq_left hle).symm
    · rw [List.take_left' hl, hl]

/-- C17 at MasterPhrase "x", Domain "y" with PasswordLength 4 and 12. -/
theorem GeneratePassword_shared_initial_segment_witness :
    ∃ out₁ out₂ : GoString,
      GeneratePassword ⟨utf8 "x", utf8 "y", [], 4, false⟩ = Result.value (some out₁) none ∧
      GeneratePassword ⟨utf8 "x", utf8 "y", [], 12, false⟩ = Result.value (some out₂) none ∧
      out₁ <+: out₂ ∧ out₂.take (4 : Int).toNat = out₁ :=
  (GeneratePassword_shared_initial_segment (utf8 "x") (utf8 "y") [] (by decide) (by decide)).1
    4 12 (by decide) (by decide) (by decide)

theorem Base64.enc_mem (v : Nat) : Base64.enc v ∈ Base64.encodeStd := by
  have hlen : Base64.encodeStd.length = 64 := by decide
  have hlt : v % 64 < Base64.encodeStd.length := by rw [hlen]; exact Nat.mod_lt _ (by decide)
  rw [Base64.enc, List.getD_eq_getElem _ _ hlt]
  exact List.getElem_mem _

theorem Base64.StdPadding_not_mem : Base64.StdPadding ∉ Base64.encodeStd := by decide

theorem Base64.EncodeToString_shape (k : Nat) :
    ∀ src : List UInt8, src.length = 3 * k + 2 →
      ∃ body : GoString, Base64.EncodeToString src = body ++ [Base64.StdPadding] ∧
        body.length = 4 * k + 3 ∧ ∀ c ∈ body, c ∈ Base64.encodeStd := by
  induction k with
  | zero =>
    intro src hsrc
    match src, hsrc with
    | [b0, b1], _ =>
      refine ⟨[Base64.enc ((b0.toNat * 65536 + b1.toNat * 256) >>> 18),
        Base64.enc ((b0.toNat * 65536 + b1.toNat * 256) >>> 12),
        Base64.enc ((b0.toNat * 65536 + b1.toNat * 256) >>> 6)], rfl, rfl, ?_⟩
      intro c hc
      simp only [List.mem_cons, List.mem_singleton, List.not_mem_nil, or_false] at hc
      rcases hc with rfl | rfl | rfl <;> exact Base64.enc_mem _
  | succ k ih =>
    intro src hsrc
    match src, hsrc with
    | b0 :: b1 :: b2 :: rest, hsrc =>
      obtain ⟨body, hbody, hlen, hmem⟩ := ih rest (by simp only [List.length_cons] at hsrc; omega)
      refine ⟨Base64.enc ((b0.toNat * 65536 + b1.toNat * 256 + b2.toNat) >>> 18)
        :: Base64.enc ((b0.toNat * 65536 + b1.toNat * 256 + b2.toNat) >>> 12)
        :: Base64.enc ((b0.toNat * 65536 + b1.toNat * 256 + b2.toNat) >>> 6)
        :: Base64.enc (b0.toNat * 65536 + b1.toNat * 256 + b2.toNat) :: body, ?_, ?_, ?_⟩
      · simp only [Base64.EncodeToString, hbody, List.cons_append]
      · simp only [List.length_cons, hlen]; omega
      · intro c hc
        simp only [List.mem_cons] at hc
        rcases hc with rfl | rfl | rfl | rfl | hc
        · exact Base64.enc_mem _
        · exact Base64.enc_mem _
        · exact Base64.enc_mem _
        · exact Base64.enc_mem _
        · exact hmem c hc

theorem fullEncryptHash_body (s : Settings) :
    ∃ body : GoString, fullEncryptHash s = body ++ [Base64.StdPadding] ∧
      body.length = 43 ∧ ∀ c ∈ body, c ∈ Base64.encodeStd :=
  Base64.EncodeToString_shape 10 _ (SHA256.Sum256_length _)

theorem fullEncryptHash_ascii (s : Settings) : ∀ c ∈ fullEncryptHash s, c.toNat < 128 := by
  obtain ⟨body, hbody, -, hmem⟩ := fullEncryptHash_body s
  have hstd : ∀ c ∈ Base64.encodeStd, c.toNat < 128 := by decide
  intro c hc
  rw [hbody, List.mem_append, List.mem_singleton] at hc
  rcases hc with hc | rfl
  · exact hstd c (hmem c hc)
  · decide

/-- C18: for every MasterPhrase, Domain and AdditionalInfo the encoded digest is
43 characters of the base64 alphabet (A-Z, a-z, 0-9, + and /) followed by one
padding character =, which is not in the alphabet and so occurs exactly once, at
the end.  Hence, for non-empty MasterPhrase and Domain and without special
characters, a password of length 0 ≤ PasswordLength ≤ 43 has only characters of
the base64 alphabet, and the password for PasswordLength = 44 ends in =. -/
theorem fullEncryptHash_shape (M D A : GoString) :
    (∃ body : GoString,
      Base64.EncodeToString (SHA256.Sum256 (M ++ utf8 ":" ++ D ++ utf8 ":" ++ A))
        = body ++ utf8 "=" ∧
      body.length = 43 ∧
      (∀ c ∈ body,
        c ∈ utf8 "ABCDEFGHIJKLMNOPQRSTUVWXYZabcdefghijklmnopqrstuvwxyz0123456789+/") ∧
      (Base64.EncodeToString (SHA256.Sum256 (M ++ utf8 ":" ++ D ++ utf8 ":" ++ A))).count
        Base64.StdPadding = 1) ∧
    (∀ L : Int, M ≠ [] → D ≠ [] → 0 ≤ L → L ≤ 43 →
      ∃ out : GoString,
        GeneratePassword ⟨M, D, A, L, false⟩ = Result.value (some out) none ∧
        (out.length : Int) = L ∧
        ∀ c ∈ out,
          c ∈ utf8 "ABCDEFGHIJKLMNOPQRSTUVWXYZabcdefghijklmnopqrstuvwxyz0123456789+/") ∧
    (M ≠ [] → D ≠ [] →
      ∃ out : GoString,
        GeneratePassword ⟨M, D, A, 44, false⟩ = Result.value (some out) none ∧
        out.getLast? = some Base64.StdPadding ∧ out.getLast? = (utf8 "=").head?) := by
  have hE : ∀ (L : Int) (F : Bool), fullEncryptHash ⟨M, D, A, L, F⟩
      = Base64.EncodeToString (SHA256.Sum256 (M ++ utf8 ":" ++ D ++ utf8 ":" ++ A)) :=
    fun _ _ => rfl
  obtain ⟨body, hbody, hlen, hmem⟩ := fullEncryptHash_body ⟨M, D, A, 0, false⟩
  rw [hE] at hbody
  refine ⟨⟨body, hbody, hlen, hmem, ?_⟩, ?_, ?_⟩
  · rw [hbody, List.count_append, List.count_eq_zero_of_not_mem
      (fun h => Base64.StdPadding_not_mem (hmem _ h))]
    rfl
  · intro L hM hD h0 h43
    refine ⟨_, GeneratePassword_plain ⟨M, D, A, L, false⟩ hM hD rfl h0
      (le_trans h43 (by decide)), ?_, ?_⟩
    · rw [List.length_take, fullEncryptHash_length]
      show ((min L.toNat 44 : Nat) : Int) = L
      omega
    · intro c hc
      rw [hE, hbody] at hc
      have hL : L.toNat ≤ body.length := by
        show L.toNat ≤ body.length
        omega
      rw [List.take_append_of_le_length hL] at hc
      exact hmem c (List.mem_of_mem_take hc)
  · intro hM hD
    refine ⟨_, GeneratePassword_plain ⟨M, D, A, 44, false⟩ hM hD rfl
      (show (0 : Int) ≤ 44 by decide) (le_refl _),
      ?_, ?_⟩
    · have h44 : (fullEncryptHash ⟨M, D, A, 44, false⟩).length = 44 := fullEncryptHash_length _
      show ((fullEncryptHash ⟨M, D, A, 44, false⟩).take 44).getLast? = _
      rw [List.take_of_length_le (le_of_eq h44), hE, hbody]
      exact List.getLast?_concat _
    · have h44 : (fullEncryptHash ⟨M, D, A, 44, false⟩).length = 44 := fullEncryptHash_length _
      show ((fullEncryptHash ⟨M, D, A, 44, false⟩).take 44).getLast? = _
      rw [List.take_of_length_le (le_of_eq h44), hE, hbody]
      exact List.getLast?_concat _

set_option maxRecDepth 100000 in
/-- C18 at MasterPhrase "x", Domain "y": the password of length 44 without
special characters is the whole encoded digest and ends in =. -/
theorem fullEncryptHash_shape_witness :
    GeneratePassword ⟨utf8 "x", utf8 "y", [], 44, false⟩
        = Result.value (some (utf8 "qIvqPcFFcejZoPUDDupRbJEMQNB7Umm1QrKUl3/wxto=")) none ∧
    ∃ out : GoString,
      GeneratePassword ⟨utf8 "x", utf8 "y", [], 44, false⟩ = Result.value (some out) none ∧
      out.getLast? = some Base64.StdPadding ∧ out.getLast? = (utf8 "=").head? :=
  ⟨by decide!, (fullEncryptHash_shape (utf8 "x") (utf8 "y") []).2.2 (by decide) (by decide)⟩

end Generator
